import Mathlib

/-
Verification of the go-mcp message hub and tool dispatcher.

This file is a shallow embedding of the core of the repository:
 - the JSON wire values exchanged over every transport (Json),
 - the tool registry and dispatcher (namespace tools, from
   internal/tools/tools.go),
 - the hub / session state machine and the server request handlers
   (namespace server, from internal/server/mcp_server.go and the
   identical loop in cmd/server/main.go),
 - the document conversion tool (namespace document, from the document
   package source).

Go machine values are modelled as follows: a Go interface value holding
JSON-decodable data is a Json tree (a nil interface is Json.null, which
is exactly the value the json package omits under the omitempty tag); a
Go map used as an id-keyed catalog is an association list with nodup
keys; a buffered channel of capacity 256 is a FIFO list together with
the capacity test that mirrors the select/default send.
-/

/-- JSON wire values. Numbers are modelled as integers: the only numbers the
core produces are Unix timestamps. -/
inductive Json where
  | null
  | bool (b : Bool)
  | num (n : Int)
  | str (s : String)
  | arr (elements : List Json)
  | obj (fields : List (String × Json))

/-- True exactly on the JSON null value, which models a nil Go interface. -/
def Json.isNull : Json → Bool
  | .null => true
  | _ => false

namespace tools

/-- A single quote character, used by the not-found error text of the
dispatcher (tools.go line 61). -/
def sq : String := String.singleton (Char.ofNat 39)

/-- tools.ToolRequest: a tool request as seen by the dispatcher
(tools.go lines 10-13). Parameters is a json.RawMessage, modelled by the
JSON value it denotes (nil is Json.null). -/
structure ToolRequest where
  name : String
  parameters : Json

/-- tools.ToolResponse (tools.go lines 16-20). Content carries omitempty,
so a nil content is Json.null; Error carries omitempty, so an absent error
is the empty string. -/
structure ToolResponse where
  status : String
  content : Json
  error : String

/-- The behavioural part of the Tool interface (tools.go lines 23-35): a
capability maps its raw parameters to either a result or an error message,
exactly the (interface value, error) pair returned by Execute. -/
def ToolFn : Type := Json → Except String Json

/-- tools.ToolManager (tools.go lines 38-40): the name-to-capability
registry, a string-keyed Go map modelled as an association list. -/
structure ToolManager where
  tools : List (String × ToolFn)

/-- tools.ToolManager.ExecuteTool (tools.go lines 56-77): look the name up;
when absent answer a status error response with the quoted not-found text;
when the capability fails answer a status error response carrying its
message; otherwise answer a status success response carrying the result. -/
def ToolManager.ExecuteTool (tm : ToolManager) (request : ToolRequest) : ToolResponse :=
  match tm.tools.lookup request.name with
  | none =>
    { status := "error", content := .null,
      error := "Tool " ++ sq ++ request.name ++ sq ++ " not found" }
  | some tool =>
    match tool request.parameters with
    | .error e => { status := "error", content := .null, error := e }
    | .ok result => { status := "success", content := result, error := "" }

/-- A capability behaves like every tool shipped in the repository on the
given parameters: a reported failure carries a non-empty message, and a
reported success carries a non-nil result value. The document and search
tools return non-nil results on every success path and build every error
with a non-empty text. -/
def wellBehavedAt (tool : ToolFn) (p : Json) : Prop :=
  (∀ e, tool p = .error e → e ≠ "") ∧ (∀ r, tool p = .ok r → r ≠ .null)

end tools

namespace server

/-- server.Message (mcp_server.go lines 16-21): the wire envelope. Content
is an interface value (always emitted, nil as null); Metadata carries
omitempty, with Json.null modelling the nil interface that gets omitted. -/
structure Message where
  id : String
  type : String
  content : Json
  metadata : Json

/-- server.ToolRequest (mcp_server.go lines 24-29): the envelope-level tool
request. Params is a json.RawMessage modelled by its JSON value. -/
structure ToolRequest where
  id : String
  tool : String
  params : Json
  metadata : Json

/-- server.ToolResponse (mcp_server.go lines 32-38). Result and Metadata
carry omitempty (null when absent); Error carries omitempty (empty string
when absent). -/
structure ToolResponse where
  request_id : String
  status : String
  result : Json
  error : String
  metadata : Json

/-- Capacity of a session's outbound queue: the Send channel is created
with make(chan Message, 256) (mcp_server.go line 129). -/
def sendCapacity : Nat := 256

/-- State owned by the hub loop of MCPServer.Run (mcp_server.go lines
79-110, identically cmd/server/main.go lines 59-90): clients is the
id-keyed map of live sessions, each carrying the FIFO contents of its
buffered Send channel; closed logs, in order, the ids whose Send channel
the loop has closed. -/
structure HubState where
  clients : List (String × List Message)
  closed : List String

/-- The register case of the hub loop (mcp_server.go lines 82-86): the map
assignment clients[client.ID] = client, overwriting any prior entry. -/
def hubRegister (st : HubState) (i : String) (q : List Message) : HubState :=
  { st with clients := (i, q) :: st.clients.filter (fun c => !(c.1 == i)) }

/-- The unregister case of the hub loop (mcp_server.go lines 88-95): when
an entry with the id is present, delete it and close its Send channel;
otherwise do nothing. -/
def hubUnregister (st : HubState) (i : String) : HubState :=
  if st.clients.any (fun c => c.1 == i) then
    { clients := st.clients.filter (fun c => !(c.1 == i)),
      closed := st.closed ++ [i] }
  else st

/-- The broadcast case of the hub loop (mcp_server.go lines 97-107): for
every live session, a select with a default clause tries to send the
message on its buffered Send channel; the send succeeds exactly when the
channel has free capacity, and otherwise the default clause closes the
channel and deletes the session from the map, without ever blocking. -/
def hubBroadcast (st : HubState) (m : Message) : HubState :=
  { clients := st.clients.filterMap (fun c =>
      if c.2.length < sendCapacity then some (c.1, c.2 ++ [m]) else none),
    closed := st.closed ++ st.clients.filterMap (fun c =>
      if c.2.length < sendCapacity then none else some c.1) }

/-- A plain (blocking) channel send c.Send <- m on the session with the
given id, as performed by the read pump for direct responses. -/
def enqueueToClient (st : HubState) (i : String) (m : Message) : HubState :=
  { st with clients := st.clients.map (fun c =>
      if c.1 == i then (c.1, c.2 ++ [m]) else c) }

/-- The tool_result envelope handed to the broadcast channel on a
successful dispatch (mcp_server.go lines 217-225); bId is the uuid the
server mints for it. -/
def toolResultMessage (bId reqId toolName : String) (result : Json) : Message :=
  { id := bId, type := "tool_result",
    content := .obj [("request_id", .str reqId), ("tool", .str toolName),
                     ("result", result)],
    metadata := .null }

/-- MCPServer.executeToolRequest (mcp_server.go lines 191-229): build the
dispatcher-level request from the envelope-level one, execute it, build
the response (same request id, the dispatch status, content and error,
plus timestamp/tool metadata), and, exactly when the dispatch status is
success, hand a tool_result envelope to the broadcast channel. The pair
returned is (the response, the broadcast envelope when one is sent). -/
def executeToolRequest (tm : tools.ToolManager) (now : Int) (bId : String)
    (request : ToolRequest) : ToolResponse × Option Message :=
  let result := tm.ExecuteTool { name := request.tool, parameters := request.params }
  let response : ToolResponse :=
    { request_id := request.id, status := result.status, result := result.content,
      error := result.error,
      metadata := .obj [("timestamp", .num now), ("tool", .str request.tool)] }
  if result.status = "success" then
    (response, some (toolResultMessage bId request.id request.tool result.content))
  else
    (response, none)

/-- The id-defaulting step of MCPServer.HandleToolRequest (mcp_server.go
lines 176-179): when the decoded request carries an empty id, a fresh uuid
is assigned before anything else observes the request. -/
def assignRequestId (freshId : String) (request : ToolRequest) : ToolRequest :=
  if request.id = "" then { request with id := freshId } else request

/-- MCPServer.HandleToolRequest (mcp_server.go lines 164-188), past the
HTTP decoding: default the request id, then run executeToolRequest; the
first component is the response written back to the HTTP caller, the
second the broadcast envelope when the dispatch succeeded. -/
def HandleToolRequest (tm : tools.ToolManager) (now : Int) (freshId bId : String)
    (request : ToolRequest) : ToolResponse × Option Message :=
  executeToolRequest tm now bId (assignRequestId freshId request)

/-- Destination of the envelope produced by one generic inbound frame of
the read pump: either a direct send on this session's own Send channel, or
a hand-off to the hub's broadcast channel. -/
inductive PumpAction where
  | toSelf (m : Message)
  | toHub (m : Message)

/-- The envelope an action carries. -/
def PumpAction.msg : PumpAction → Message
  | .toSelf m => m
  | .toHub m => m

/-- The generic-message branch of Client.readPump (mcp_server.go lines
277-314): once a frame has decoded as a Message, an empty id is replaced
by a fresh uuid, then the type is switched on: ping answers a pong
envelope to this session, get_tools answers a tools envelope carrying the
registered schemas to this session, everything else goes to the hub's
broadcast channel. freshId and outId are the uuids minted in this
iteration; schemas is the GetToolsSchema snapshot. -/
def readPumpRouteGeneric (freshId outId : String) (now : Int) (schemas : Json)
    (m : Message) : PumpAction :=
  let m := if m.id = "" then { m with id := freshId } else m
  match m.type with
  | "ping" =>
    .toSelf { id := outId, type := "pong",
              content := .obj [("timestamp", .num now)], metadata := .null }
  | "get_tools" =>
    .toSelf { id := outId, type := "tools",
              content := .obj [("tools", schemas)], metadata := .null }
  | _ => .toHub m

/-- One field of a JSON object under the omitempty tag on an interface
value: a nil interface (Json.null) is omitted, anything else is emitted. -/
def omitNull (key : String) (j : Json) : List (String × Json) :=
  match j with
  | .null => []
  | j => [(key, j)]

/-- One field of a JSON object under the omitempty tag on a string value:
the empty string is omitted, anything else is emitted. -/
def omitEmpty (key : String) (s : String) : List (String × Json) :=
  if s = "" then [] else [(key, .str s)]

/-- First entry of a JSON object with the given key, as the json decoder
reads a field. -/
def lookupField : List (String × Json) → String → Option Json
  | [], _ => none
  | (k, v) :: rest, key => if k = key then some v else lookupField rest key

/-- Decoding a JSON object field into a Go string: a missing field or an
explicit null leaves the zero value, a string is taken as is, and any
other shape is a decode error. -/
def getStr (fs : List (String × Json)) (key : String) : Option String :=
  match lookupField fs key with
  | none => some ""
  | some .null => some ""
  | some (.str s) => some s
  | some _ => none

/-- Decoding a JSON object field into a Go interface or raw-message value:
a missing field leaves the nil zero value, anything present is taken as
is. -/
def getAny (fs : List (String × Json)) (key : String) : Json :=
  match lookupField fs key with
  | none => .null
  | some v => v

/-- json.Marshal of server.Message: fields in struct order, metadata under
omitempty. -/
def encodeMessage (m : Message) : Json :=
  .obj ([("id", .str m.id), ("type", .str m.type), ("content", m.content)] ++
    omitNull "metadata" m.metadata)

/-- json.Unmarshal into server.Message. -/
def decodeMessage : Json → Option Message
  | .obj fs =>
    match getStr fs "id", getStr fs "type" with
    | some i, some t =>
      some { id := i, type := t, content := getAny fs "content",
             metadata := getAny fs "metadata" }
    | _, _ => none
  | _ => none

/-- json.Marshal of server.ToolRequest: fields in struct order, params
always emitted (a nil raw message marshals as null), metadata under
omitempty. -/
def encodeToolRequest (r : ToolRequest) : Json :=
  .obj ([("id", .str r.id), ("tool", .str r.tool), ("params", r.params)] ++
    omitNull "metadata" r.metadata)

/-- json.Unmarshal into server.ToolRequest. -/
def decodeToolRequest : Json → Option ToolRequest
  | .obj fs =>
    match getStr fs "id", getStr fs "tool" with
    | some i, some t =>
      some { id := i, tool := t, params := getAny fs "params",
             metadata := getAny fs "metadata" }
    | _, _ => none
  | _ => none

/-- json.Marshal of server.ToolResponse: fields in struct order, result
and metadata under omitempty on interface values, error under omitempty
on a string. -/
def encodeToolResponse (p : ToolResponse) : Json :=
  .obj ([("request_id", .str p.request_id), ("status", .str p.status)] ++
    omitNull "result" p.result ++ omitEmpty "error" p.error ++
    omitNull "metadata" p.metadata)

/-- json.Unmarshal into server.ToolResponse. -/
def decodeToolResponse : Json → Option ToolResponse
  | .obj fs =>
    match getStr fs "request_id", getStr fs "status", getStr fs "error" with
    | some i, some st, some e =>
      some { request_id := i, status := st, result := getAny fs "result",
             error := e, metadata := getAny fs "metadata" }
    | _, _, _ => none
  | _ => none

/-- The tool_response envelope the read pump sends back on its own
session's Send channel (mcp_server.go lines 269-273); respId is the uuid
the server mints for it. Its content is the interface value holding the
response, represented by the wire object it serialises to. -/
def toolResponseMessage (respId : String) (response : ToolResponse) : Message :=
  { id := respId, type := "tool_response",
    content := encodeToolResponse response, metadata := .null }

/-- The tool-request branch of Client.readPump (mcp_server.go lines
263-275) together with the hub processing it triggers: the frame has
decoded as a ToolRequest with a non-empty tool name, executeToolRequest
runs (handing a tool_result envelope to the broadcast channel exactly on
success, lines 215-226), and the resulting response is wrapped in a
tool_response envelope sent on this session's own Send channel. The
broadcast fan-out and the direct send land in the same hub state; the
direct send is modelled against the post-broadcast state. selfId is the
id of the session that read the frame; bId and respId are the uuids
minted for the broadcast and response envelopes. -/
def readPumpToolRequestStep (tm : tools.ToolManager) (now : Int)
    (bId respId selfId : String) (st : HubState) (request : ToolRequest) : HubState :=
  let out := executeToolRequest tm now bId request
  let st1 := match out.2 with
    | some bm => hubBroadcast st bm
    | none => st
  enqueueToClient st1 selfId
    { id := respId, type := "tool_response",
      content := encodeToolResponse out.1, metadata := .null }

end server

namespace document

/-- DocumentType text. A Go DocumentType is a string. -/
def TypeText : String := "text"

/-- DocumentType html. -/
def TypeHTML : String := "html"

/-- DocumentType json. -/
def TypeJSON : String := "json"

/-- DocumentType markdown. -/
def TypeMarkdown : String := "markdown"

/-- isValidDocType from the document package: a loop over the four valid
types comparing each with the argument. -/
def isValidDocType (docType : String) : Bool :=
  [TypeText, TypeHTML, TypeJSON, TypeMarkdown].any (fun t => docType == t)

/-- ConvertParams of the document package. -/
structure ConvertParams where
  content : String
  fromType : String
  toType : String

/-- DocumentTool.convert from the document package: reject empty content,
reject an invalid source or target type, return the content untouched in a
one-field map when source and target types coincide, and otherwise apply
the simulated conversion (markdown to html, html to text, json to text, or
the commented fallback) and return a three-field map. -/
def convert (params : ConvertParams) : Except String Json :=
  if params.content = "" then
    .error "内容不能为空"
  else if !isValidDocType params.fromType || !isValidDocType params.toType then
    .error "不支持的文档类型"
  else if params.fromType = params.toType then
    .ok (.obj [("content", .str params.content)])
  else
    let convertedContent :=
      if params.fromType == TypeMarkdown && params.toType == TypeHTML then
        let content := params.content.replace "# " "<h1>" ++ "</h1>"
        let content := content.replace "## " "<h2>" ++ "</h2>"
        let paragraphs := content.splitOn "\n\n"
        let paragraphs := paragraphs.map (fun p =>
          if p.startsWith "<h" then p else "<p>" ++ p ++ "</p>")
        "<html><body>" ++ String.intercalate "" paragraphs ++ "</body></html>"
      else if params.fromType == TypeHTML && params.toType == TypeText then
        ((((((((((params.content.replace "<html>" "").replace "</html>" ""
          ).replace "<body>" "").replace "</body>" "").replace "<h1>" ""
          ).replace "</h1>" "\n\n").replace "<h2>" "").replace "</h2>" "\n\n"
          ).replace "<p>" "").replace "</p>" "\n\n")
      else if params.fromType == TypeJSON && params.toType == TypeText then
        params.content
      else
        "/* 从 " ++ params.fromType ++ " 转换到 " ++ params.toType ++ " */\n" ++
          params.content
    .ok (.obj [("from_type", .str params.fromType), ("to_type", .str params.toType),
               ("content", .str convertedContent)])

end document

/-- A concrete envelope used to exercise the hub operations. -/
def chatMsg : server.Message := { id := "w", type := "chat", content := .null, metadata := .null }

/-- A hub state with one empty session and one session whose outbound
queue is filled to capacity. -/
def fullSt : server.HubState :=
  { clients := [("a", []), ("b", List.replicate 256 chatMsg)], closed := [] }

/-- The echo capability of the testable-properties scenario: it returns
its raw parameters as the result. -/
def echoFn : tools.ToolFn := fun p => .ok p

/-- A registry holding only the echo tool. -/
def echoTm : tools.ToolManager := { tools := [("echo", echoFn)] }

/-- A hub state with two live sessions A and B, both with empty queues. -/
def twoSt : server.HubState := { clients := [("A", []), ("B", [])], closed := [] }

/-- A concrete inbound frame that decodes as a well-formed tool request
for the echo tool. -/
def echoReq : server.ToolRequest := { id := "r1", tool := "echo", params := .str "x", metadata := .null }

/-- The dispatcher's not-found error text is never the empty string. -/
theorem tools.notFound_ne_empty (name : String) :
    "Tool " ++ tools.sq ++ name ++ tools.sq ++ " not found" ≠ "" := by
  intro h
  have h2 := congrArg String.length h
  simp [String.length_append] at h2
  exact absurd h2.2 (by decide)

/-- The dispatcher always answers with status success or status error. -/
theorem tools.status_cases (tm : tools.ToolManager) (request : tools.ToolRequest) :
    (tm.ExecuteTool request).status = "success" ∨ (tm.ExecuteTool request).status = "error" := by
  cases h : tm.tools.lookup request.name with
  | none => simp [tools.ToolManager.ExecuteTool, h]
  | some t =>
    cases h2 : t request.parameters with
    | error e => simp [tools.ToolManager.ExecuteTool, h, h2]
    | ok r => simp [tools.ToolManager.ExecuteTool, h, h2]

/-- The response component of executeToolRequest, written out: the request
id is copied, the status, result and error come from the dispatcher, and
the metadata carries the timestamp and the tool name. -/
theorem server.executeToolRequest_fst (tm : tools.ToolManager) (now : Int) (bId : String)
    (request : server.ToolRequest) :
    (server.executeToolRequest tm now bId request).1 =
      { request_id := request.id,
        status := (tm.ExecuteTool { name := request.tool, parameters := request.params }).status,
        result := (tm.ExecuteTool { name := request.tool, parameters := request.params }).content,
        error := (tm.ExecuteTool { name := request.tool, parameters := request.params }).error,
        metadata := .obj [("timestamp", .num now), ("tool", .str request.tool)] } := by
  by_cases h :
      (tm.ExecuteTool { name := request.tool, parameters := request.params }).status = "success" <;>
    simp [server.executeToolRequest, h]

/-- Two entries of a nodup-keyed association list with the same key carry
the same value; this is the uniqueness a Go map guarantees for its keys. -/
theorem key_unique {α : Type} {l : List (String × α)} (hnd : (l.map Prod.fst).Nodup)
    {i : String} {a b : α} (ha : (i, a) ∈ l) (hb : (i, b) ∈ l) : a = b := by
  induction l with
  | nil => cases ha
  | cons hd tl ih =>
    rw [List.map_cons, List.nodup_cons] at hnd
    rcases List.mem_cons.mp ha with ha1 | ha2 <;> rcases List.mem_cons.mp hb with hb1 | hb2
    · have := ha1.trans hb1.symm
      exact congrArg Prod.snd this
    · exfalso
      exact hnd.1 (ha1 ▸ (List.mem_map.mpr ⟨(i, b), hb2, rfl⟩))
    · exfalso
      exact hnd.1 (hb1 ▸ (List.mem_map.mpr ⟨(i, a), ha2, rfl⟩))
    · exact ih hnd.2 ha2 hb2

/-- After filtering a key out of an association list, no entry with that
key remains. -/
theorem filter_no_key {α : Type} (l : List (String × α)) (i : String) :
    (l.filter (fun c => !(c.1 == i))).any (fun c => c.1 == i) = false := by
  induction l with
  | nil => rfl
  | cons hd tl ih =>
    by_cases h : hd.1 == i <;> simp_all [List.filter_cons]

/-- A plain channel send to one session leaves every session with another
id untouched. -/
theorem mem_enqueueToClient_of_ne {st : server.HubState} {i selfId : String}
    {q : List server.Message} (hi : i ≠ selfId) (h : (i, q) ∈ st.clients)
    (m : server.Message) : (i, q) ∈ (server.enqueueToClient st selfId m).clients := by
  unfold server.enqueueToClient
  refine List.mem_map.mpr ⟨(i, q), h, ?_⟩
  simp [hi]

/-- A plain channel send to one session appends the message at the tail
of that session's queue. -/
theorem mem_enqueueToClient_self {st : server.HubState} {i : String}
    {q : List server.Message} (h : (i, q) ∈ st.clients) (m : server.Message) :
    (i, q ++ [m]) ∈ (server.enqueueToClient st i m).clients := by
  unfold server.enqueueToClient
  exact List.mem_map.mpr ⟨(i, q), h, by simp⟩

/-- The broadcast component of executeToolRequest, written out: a
tool_result envelope exactly when the dispatch status is success. -/
theorem server.executeToolRequest_snd (tm : tools.ToolManager) (now : Int) (bId : String)
    (request : server.ToolRequest) :
    (server.executeToolRequest tm now bId request).2 =
      (if (tm.ExecuteTool { name := request.tool, parameters := request.params }).status = "success"
       then some (server.toolResultMessage bId request.id request.tool
              (tm.ExecuteTool { name := request.tool, parameters := request.params }).content)
       else none) := by
  by_cases h :
      (tm.ExecuteTool { name := request.tool, parameters := request.params }).status = "success" <;>
    simp [server.executeToolRequest, h]


/-- C2, counterexample: on the empty registry and the tool name echo, the
dispatcher does answer status error, but its message is capitalised
"Tool ... not found", not the lowercase "tool ... not found" text the
claim states. -/
theorem executeTool_notFound_text_cex :
    (tools.ToolManager.ExecuteTool ⟨[]⟩ ⟨"echo", .null⟩).status = "error"
    ∧ (tools.ToolManager.ExecuteTool ⟨[]⟩ ⟨"echo", .null⟩).error ≠
        "tool " ++ tools.sq ++ "echo" ++ tools.sq ++ " not found" :=
  ⟨rfl, by decide⟩

/-- C2, amended: for every tool request whose tool name is not bound in
the registry, ExecuteTool returns a response with status error, no
content, and the error message capitalised "Tool ... not found" quoting
the requested name; being a total Lean function, it never panics or
aborts the caller. -/
theorem executeTool_notFound_text (tm : tools.ToolManager) (request : tools.ToolRequest)
    (h : tm.tools.lookup request.name = none) :
    tm.ExecuteTool request =
      { status := "error", content := .null,
        error := "Tool " ++ tools.sq ++ request.name ++ tools.sq ++ " not found" } := by
  unfold tools.ToolManager.ExecuteTool
  rw [h]

/-- C2, witness: the amended statement evaluated on the empty registry and
the name echo. -/
theorem executeTool_notFound_text_witness :
    (tools.ToolManager.mk []).tools.lookup "echo" = none
    ∧ tools.ToolManager.ExecuteTool ⟨[]⟩ ⟨"echo", .null⟩ =
      { status := "error", content := .null,
        error := "Tool " ++ tools.sq ++ "echo" ++ tools.sq ++ " not found" } :=
  ⟨rfl, executeTool_notFound_text ⟨[]⟩ ⟨"echo", .null⟩ rfl⟩

/-- C3: every request that reaches executeToolRequest yields exactly one
response, the value of a total deterministic function, whose request_id
field equals the id of the input request, and whose status is success or
error, for registered and unregistered tools and succeeding and failing
capabilities alike. -/
theorem executeToolRequest_one_response (tm : tools.ToolManager) (now : Int) (bId : String)
    (request : server.ToolRequest) :
    (server.executeToolRequest tm now bId request).1.request_id = request.id
    ∧ ((server.executeToolRequest tm now bId request).1.status = "success"
       ∨ (server.executeToolRequest tm now bId request).1.status = "error") := by
  rw [server.executeToolRequest_fst]
  exact ⟨rfl, tools.status_cases tm { name := request.tool, parameters := request.params }⟩

/-- C4: hub unregistration is idempotent; unregistering an absent id
leaves the state unchanged and produces no error, and unregistering a
present id removes every entry under it and closes its queue exactly
once. -/
theorem hubUnregister_idempotent (st : server.HubState) (i : String) :
    server.hubUnregister (server.hubUnregister st i) i = server.hubUnregister st i
    ∧ (st.clients.any (fun c => c.1 == i) = false → server.hubUnregister st i = st)
    ∧ (st.clients.any (fun c => c.1 == i) = true →
        ((server.hubUnregister st i).clients.any (fun c => c.1 == i) = false
         ∧ (server.hubUnregister st i).closed = st.closed ++ [i])) := by
  by_cases h : st.clients.any (fun c => c.1 == i) = true
  · refine ⟨?_, fun h2 => absurd h (by simp [h2]), fun _ => ⟨?_, ?_⟩⟩
    · have hin : ((server.hubUnregister st i).clients.any (fun c => c.1 == i)) = false := by
        rw [server.hubUnregister, if_pos h]
        exact filter_no_key st.clients i
      rw [server.hubUnregister, if_neg (by simp [hin])]
    · rw [server.hubUnregister, if_pos h]
      exact filter_no_key st.clients i
    · rw [server.hubUnregister, if_pos h]
  · have h2 : server.hubUnregister st i = st := by
      rw [server.hubUnregister, if_neg h]
    exact ⟨by rw [h2, h2], fun _ => h2, fun h3 => absurd h3 h⟩

/-- C4, witness: the theorem evaluated on a one-session state, present
then absent. -/
theorem hubUnregister_idempotent_witness :
    ((server.HubState.mk [("a", [])] []).clients.any (fun c => c.1 == "a") = true)
    ∧ (server.hubUnregister (server.HubState.mk [("a", [])] []) "a").clients.any
        (fun c => c.1 == "a") = false
    ∧ (server.hubUnregister (server.HubState.mk [("a", [])] []) "a").closed = [] ++ ["a"]
    ∧ server.hubUnregister (server.hubUnregister (server.HubState.mk [("a", [])] []) "a") "a"
        = server.hubUnregister (server.HubState.mk [("a", [])] []) "a" :=
  ⟨rfl, ((hubUnregister_idempotent (server.HubState.mk [("a", [])] []) "a").2.2 rfl).1,
   ((hubUnregister_idempotent (server.HubState.mk [("a", [])] []) "a").2.2 rfl).2,
   (hubUnregister_idempotent (server.HubState.mk [("a", [])] []) "a").1⟩

/-- C1: for every broadcast over any hub state with a well-keyed live-set,
every session whose outbound queue has free capacity receives the message
enqueued at the tail of its queue and remains live, while every session
whose queue is full at that moment does not receive it, disappears from
the live-set, and has its queue closed; the broadcast case of the hub loop
is a total function of the state, the select default making it impossible
to block on a full queue. -/
theorem hubBroadcast_delivers_or_drops (st : server.HubState) (m : server.Message)
    (i : String) (q : List server.Message)
    (hnd : (st.clients.map Prod.fst).Nodup) (hmem : (i, q) ∈ st.clients) :
    (q.length < server.sendCapacity →
      (i, q ++ [m]) ∈ (server.hubBroadcast st m).clients)
    ∧ (server.sendCapacity ≤ q.length →
      (∀ q2, (i, q2) ∉ (server.hubBroadcast st m).clients)
      ∧ i ∈ (server.hubBroadcast st m).closed) := by
  constructor
  · intro hlt
    exact List.mem_filterMap.mpr ⟨(i, q), hmem, by simp [hlt]⟩
  · intro hge
    constructor
    · intro q2 hq2
      obtain ⟨⟨j, p⟩, hjp, heq⟩ := List.mem_filterMap.mp hq2
      by_cases hp : p.length < server.sendCapacity
      · rw [if_pos hp] at heq
        obtain ⟨hj, hq⟩ := Prod.mk.injEq .. ▸ Option.some.inj heq
        subst hj
        have := key_unique hnd hjp hmem
        subst this
        exact absurd hp (by omega)
      · rw [if_neg hp] at heq
        exact Option.noConfusion heq
    · refine List.mem_append_right _ (List.mem_filterMap.mpr ⟨(i, q), hmem, ?_⟩)
      simp [Nat.not_lt.mpr hge]

/-- C1, witness: on a state with an empty session a and a session b filled
to capacity 256, broadcasting removes and closes b while a receives the
message. -/
theorem hubBroadcast_delivers_or_drops_witness :
    server.sendCapacity ≤ (List.replicate 256 chatMsg).length
    ∧ ("b", ([] : List server.Message)) ∉ (server.hubBroadcast fullSt chatMsg).clients
    ∧ "b" ∈ (server.hubBroadcast fullSt chatMsg).closed
    ∧ ("a", [chatMsg]) ∈ (server.hubBroadcast fullSt chatMsg).clients := by
  have hnd : (fullSt.clients.map Prod.fst).Nodup := by
    have h2 : fullSt.clients.map Prod.fst = ["a", "b"] := rfl
    rw [h2]
    decide
  have hb := hubBroadcast_delivers_or_drops fullSt chatMsg "b" (List.replicate 256 chatMsg)
    hnd (List.Mem.tail _ (List.Mem.head _))
  have ha := hubBroadcast_delivers_or_drops fullSt chatMsg "a" [] hnd (List.Mem.head _)
  have hge : server.sendCapacity ≤ (List.replicate 256 chatMsg).length := by
    rw [List.length_replicate]
    exact Nat.le_refl 256
  exact ⟨hge, (hb.2 hge).1 [], (hb.2 hge).2, ha.1 (by decide)⟩

/-- C5, counterexample: two sessions A and B are live with empty queues; A
reads a frame that decodes as a well-formed echo tool request; processing
that one frame grows B's outbound queue from zero to one message, because
a successful dispatch hands a tool_result envelope to the hub broadcast
from inside executeToolRequest — so another session's queue is modified,
contrary to the claim. -/
theorem readPumpToolRequest_other_queue_cex :
    ((twoSt.clients.lookup "B").map List.length = some 0)
    ∧ (((server.readPumpToolRequestStep echoTm 0 "b1" "s1" "A" twoSt
          echoReq).clients.lookup "B").map List.length = some 1) :=
  ⟨rfl, rfl⟩

/-- C5, amended: processing a well-formed tool-request frame always wraps
the Tool Response in a tool_response envelope enqueued onto the reading
session's own outbound queue; other sessions' queues are touched exactly
when the dispatch status is success: then the hub fan-out appends the
single tool_result envelope to every other live session's queue with free
capacity, and the reading session's queue receives that tool_result
before its tool_response; when the dispatch status is not success, every
other session's queue is left unchanged. -/
theorem readPumpToolRequest_other_queues (tm : tools.ToolManager) (now : Int)
    (bId respId selfId : String) (st : server.HubState) (request : server.ToolRequest)
    (i : String) (q q0 : List server.Message)
    (hi : i ≠ selfId) (hmem : (i, q) ∈ st.clients) (hself : (selfId, q0) ∈ st.clients) :
    ((server.executeToolRequest tm now bId request).1.status ≠ "success" →
      ((i, q) ∈ (server.readPumpToolRequestStep tm now bId respId selfId st request).clients
       ∧ (selfId, q0 ++ [server.toolResponseMessage respId
            (server.executeToolRequest tm now bId request).1]) ∈
          (server.readPumpToolRequestStep tm now bId respId selfId st request).clients))
    ∧ ((server.executeToolRequest tm now bId request).1.status = "success" →
       ((q.length < server.sendCapacity →
        (i, q ++ [server.toolResultMessage bId request.id request.tool
                    (server.executeToolRequest tm now bId request).1.result]) ∈
          (server.readPumpToolRequestStep tm now bId respId selfId st request).clients)
        ∧ (q0.length < server.sendCapacity →
        (selfId, q0 ++ [server.toolResultMessage bId request.id request.tool
                    (server.executeToolRequest tm now bId request).1.result]
            ++ [server.toolResponseMessage respId
                    (server.executeToolRequest tm now bId request).1]) ∈
          (server.readPumpToolRequestStep tm now bId respId selfId st request).clients))) := by
  have hst : (server.executeToolRequest tm now bId request).1.status =
      (tm.ExecuteTool { name := request.tool, parameters := request.params }).status := by
    rw [server.executeToolRequest_fst]
  have hres : (server.executeToolRequest tm now bId request).1.result =
      (tm.ExecuteTool { name := request.tool, parameters := request.params }).content := by
    rw [server.executeToolRequest_fst]
  constructor
  · intro hns
    rw [hst] at hns
    have hbc : (server.executeToolRequest tm now bId request).2 = none := by
      rw [server.executeToolRequest_snd, if_neg hns]
    simp only [server.readPumpToolRequestStep, hbc]
    exact ⟨mem_enqueueToClient_of_ne hi hmem _, mem_enqueueToClient_self hself _⟩
  · intro hs
    rw [hres]
    rw [hst] at hs
    have hbc : (server.executeToolRequest tm now bId request).2 =
        some (server.toolResultMessage bId request.id request.tool
          (tm.ExecuteTool { name := request.tool, parameters := request.params }).content) := by
      rw [server.executeToolRequest_snd, if_pos hs]
    simp only [server.readPumpToolRequestStep, hbc]
    constructor
    · intro hq
      refine mem_enqueueToClient_of_ne hi ?_ _
      exact List.mem_filterMap.mpr ⟨(i, q), hmem, by simp [hq]⟩
    · intro hq0
      refine mem_enqueueToClient_self ?_ _
      exact List.mem_filterMap.mpr ⟨(selfId, q0), hself, by simp [hq0]⟩

/-- C5, witness: the amended statement evaluated on the two-session state
with the reading session A, the observer B, and the succeeding echo
dispatch: B receives exactly the broadcast tool_result, and A receives
the tool_result followed by its tool_response. -/
theorem readPumpToolRequest_other_queues_witness :
    ("B" : String) ≠ "A"
    ∧ ("B", ([] : List server.Message)) ∈ twoSt.clients
    ∧ ("A", ([] : List server.Message)) ∈ twoSt.clients
    ∧ (server.executeToolRequest echoTm 0 "b1" echoReq).1.status = "success"
    ∧ ("B", [server.toolResultMessage "b1" "r1" "echo"
          (server.executeToolRequest echoTm 0 "b1" echoReq).1.result]) ∈
        (server.readPumpToolRequestStep echoTm 0 "b1" "s1" "A" twoSt echoReq).clients
    ∧ ("A", [server.toolResultMessage "b1" "r1" "echo"
          (server.executeToolRequest echoTm 0 "b1" echoReq).1.result,
        server.toolResponseMessage "s1" (server.executeToolRequest echoTm 0 "b1" echoReq).1]) ∈
        (server.readPumpToolRequestStep echoTm 0 "b1" "s1" "A" twoSt echoReq).clients := by
  have h := readPumpToolRequest_other_queues echoTm 0 "b1" "s1" "A" twoSt echoReq "B" [] []
    (by decide) (List.Mem.tail _ (List.Mem.head _)) (List.Mem.head _)
  exact ⟨by decide, List.Mem.tail _ (List.Mem.head _), List.Mem.head _, rfl,
    (h.2 rfl).1 (by decide), (h.2 rfl).2 (by decide)⟩

/-- C6: every response the dispatcher produces has status success or
status error; and under the well-behavedness every shipped capability
satisfies (non-empty failure messages, non-nil success results), the
content is populated exactly when the status is success and the error
text is populated exactly when the status is error. -/
theorem executeTool_response_shape (tm : tools.ToolManager) (request : tools.ToolRequest) :
    ((tm.ExecuteTool request).status = "success" ∨ (tm.ExecuteTool request).status = "error")
    ∧ ((∀ t, tm.tools.lookup request.name = some t → tools.wellBehavedAt t request.parameters) →
        (((tm.ExecuteTool request).content ≠ .null ↔ (tm.ExecuteTool request).status = "success")
         ∧ ((tm.ExecuteTool request).error ≠ "" ↔ (tm.ExecuteTool request).status = "error"))) := by
  refine ⟨tools.status_cases tm request, fun hw => ?_⟩
  cases h : tm.tools.lookup request.name with
  | none =>
    constructor
    · simp [tools.ToolManager.ExecuteTool, h]
    · simp [tools.ToolManager.ExecuteTool, h, tools.notFound_ne_empty]
  | some t =>
    have hwb := hw t h
    cases h2 : t request.parameters with
    | error e =>
      have he := hwb.1 e h2
      simp [tools.ToolManager.ExecuteTool, h, h2, he]
    | ok r =>
      have hr := hwb.2 r h2
      simp [tools.ToolManager.ExecuteTool, h, h2, hr]

/-- C6, witness: the theorem evaluated on the echo registry with string
parameters. -/
theorem executeTool_response_shape_witness :
    (∀ t, echoTm.tools.lookup "echo" = some t → tools.wellBehavedAt t (.str "x"))
    ∧ (((echoTm.ExecuteTool ⟨"echo", .str "x"⟩).content ≠ .null ↔
        (echoTm.ExecuteTool ⟨"echo", .str "x"⟩).status = "success")
       ∧ ((echoTm.ExecuteTool ⟨"echo", .str "x"⟩).error ≠ "" ↔
        (echoTm.ExecuteTool ⟨"echo", .str "x"⟩).status = "error")) := by
  have hw : ∀ t, echoTm.tools.lookup "echo" = some t → tools.wellBehavedAt t (.str "x") := by
    intro t ht
    have h2 : echoTm.tools.lookup "echo" = some echoFn := rfl
    rw [h2] at ht
    injection ht with h3
    subst h3
    constructor
    · intro e he
      exact Except.noConfusion he
    · intro q hq
      have h4 : (Json.str "x") = q := Except.ok.inj hq
      subst h4
      exact fun hn => Json.noConfusion hn
  exact ⟨hw, (executeTool_response_shape echoTm ⟨"echo", .str "x"⟩).2 hw⟩

/-- C7: with the uuid generator producing non-empty strings, every
envelope routed by the generic branch of the read pump carries a
non-empty id (an empty inbound id is replaced by the fresh uuid before
the type switch runs), the HTTP boundary assigns a request id when the
incoming one is empty, and the response the dispatcher correlates
therefore carries a non-empty request id. -/
theorem boundary_assigns_nonempty_id (freshId outId : String) (now : Int) (schemas : Json)
    (m : server.Message) (tm : tools.ToolManager) (bId : String) (r : server.ToolRequest)
    (hf : freshId ≠ "") (ho : outId ≠ "") :
    (server.readPumpRouteGeneric freshId outId now schemas m).msg.id ≠ ""
    ∧ (server.assignRequestId freshId r).id ≠ ""
    ∧ (server.HandleToolRequest tm now freshId bId r).1.request_id ≠ "" := by
  have h2 : (server.assignRequestId freshId r).id ≠ "" := by
    by_cases hr : r.id = "" <;> simp [server.assignRequestId, hr, hf]
  refine ⟨?_, h2, ?_⟩
  · by_cases hm : m.id = ""
    · simp only [server.readPumpRouteGeneric, if_pos hm]
      split <;> simp [server.PumpAction.msg, hf, ho]
    · simp only [server.readPumpRouteGeneric, if_neg hm]
      split <;> simp [server.PumpAction.msg, hm, ho]
  · rw [server.HandleToolRequest, server.executeToolRequest_fst]
    exact h2

/-- C7, witness: the theorem evaluated on empty-id inbound values with
concrete non-empty uuids. -/
theorem boundary_assigns_nonempty_id_witness :
    ("u1" : String) ≠ ""
    ∧ ("u2" : String) ≠ ""
    ∧ (server.readPumpRouteGeneric "u1" "u2" 0 .null
        { id := "", type := "chat", content := .null, metadata := .null }).msg.id ≠ ""
    ∧ (server.assignRequestId "u1"
        { id := "", tool := "echo", params := .null, metadata := .null }).id ≠ ""
    ∧ (server.HandleToolRequest ⟨[]⟩ 0 "u1" "b"
        { id := "", tool := "echo", params := .null, metadata := .null }).1.request_id ≠ "" := by
  have h := boundary_assigns_nonempty_id "u1" "u2" 0 .null
    { id := "", type := "chat", content := .null, metadata := .null } ⟨[]⟩ "b"
    { id := "", tool := "echo", params := .null, metadata := .null }
    (by decide) (by decide)
  exact ⟨by decide, by decide, h.1, h.2.1, h.2.2⟩

/-- C8: the HTTP tool handler assigns the fresh id exactly when the
incoming id is empty, its response is the single dispatcher invocation on
the id-defaulted request, and it hands a tool_result envelope carrying
the request id, the tool name and the result to the hub broadcast exactly
when the dispatch status is success — a failed dispatch produces no
broadcast. -/
theorem handleToolRequest_broadcast_iff_success (tm : tools.ToolManager) (now : Int)
    (freshId bId : String) (request : server.ToolRequest) :
    (server.assignRequestId freshId request).id =
      (if request.id = "" then freshId else request.id)
    ∧ (server.HandleToolRequest tm now freshId bId request).1 =
      (server.executeToolRequest tm now bId (server.assignRequestId freshId request)).1
    ∧ (server.HandleToolRequest tm now freshId bId request).2 =
      (if (server.HandleToolRequest tm now freshId bId request).1.status = "success"
       then some (server.toolResultMessage bId (server.assignRequestId freshId request).id
              (server.assignRequestId freshId request).tool
              (server.HandleToolRequest tm now freshId bId request).1.result)
       else none) := by
  refine ⟨?_, rfl, ?_⟩
  · by_cases hr : request.id = "" <;> simp [server.assignRequestId, hr]
  · rw [server.HandleToolRequest, server.executeToolRequest_snd, server.executeToolRequest_fst]

/-- C9: encoding a Message Envelope, a Tool Request or a Tool Response to
its wire JSON object and decoding it back yields the original value in
all populated fields (absent optional fields decode to their Go zero
values, which is how the model represents them). -/
theorem wire_roundtrip (m : server.Message) (r : server.ToolRequest) (p : server.ToolResponse) :
    server.decodeMessage (server.encodeMessage m) = some m
    ∧ server.decodeToolRequest (server.encodeToolRequest r) = some r
    ∧ server.decodeToolResponse (server.encodeToolResponse p) = some p := by
  refine ⟨?_, ?_, ?_⟩
  · obtain ⟨i, t, c, md⟩ := m
    cases md <;> rfl
  · obtain ⟨i, t, pa, md⟩ := r
    cases md <;> rfl
  · obtain ⟨rid, st2, res, err, md⟩ := p
    rcases eq_or_ne err "" with he | he
    · subst he
      cases res <;> cases md <;> rfl
    · cases res <;> cases md <;>
        (unfold server.encodeToolResponse server.omitEmpty; rw [if_neg he]; rfl)

/-- C10: converting non-empty content between one and the same valid
document type succeeds and returns the input content unchanged. -/
theorem convert_same_type_identity (params : document.ConvertParams)
    (hc : params.content ≠ "") (hv : document.isValidDocType params.fromType = true)
    (he : params.fromType = params.toType) :
    document.convert params = .ok (.obj [("content", .str params.content)]) := by
  have hv2 : document.isValidDocType params.toType = true := he ▸ hv
  rw [document.convert, if_neg hc]
  rw [if_neg (show ¬((!document.isValidDocType params.fromType
      || !document.isValidDocType params.toType) = true) by simp [hv, hv2])]
  rw [if_pos he]

/-- C10, witness: the theorem evaluated on text-to-text conversion of a
concrete string. -/
theorem convert_same_type_identity_witness :
    ("hello" : String) ≠ ""
    ∧ document.isValidDocType "text" = true
    ∧ document.convert ⟨"hello", "text", "text"⟩ = .ok (.obj [("content", .str "hello")]) :=
  ⟨by decide, rfl, convert_same_type_identity ⟨"hello", "text", "text"⟩ (by decide) rfl rfl⟩
